import Mathlib

/-!
Verification of the liquid-dsp packetizer (src/framing/src/packetizer.c) and
of the half-band resampler constructor (src/filter/src/resamp2.c).

The packetizer orchestrates external collaborators (CRC schemes, FEC schemes,
interleavers) that live outside the packetizer source.  They are modelled as
an explicit environment of functions, mirroring the external interface:
scheme identifiers are C `int` values, and the environment maps an identifier
to the behaviour of the corresponding external function.  Byte buffers are
modelled as `List Nat` (each element a byte value); the C scratch buffers
`buffer_0` / `buffer_1` are threaded functionally, which is faithful because
every encode/decode call fully writes the region it subsequently reads.
-/

set_option maxRecDepth 4000

/-- Environment of external collaborators used by the packetizer, one field
per external C function it calls.  `interleaver_encode L` models the
permutation of the interleaver instance created by
`interleaver_create(L, LIQUID_INTERLEAVER_BLOCK)`, and `interleaver_decode L`
its inverse; likewise the `fec_*` fields model the scheme-indexed external
FEC functions. -/
structure LiquidEnv where
  crc_get_length : Int → Nat
  crc_generate_key : Int → List Nat → Nat
  crc_validate_message : Int → List Nat → Nat → Bool
  fec_get_enc_msg_length : Int → Nat → Nat
  fec_encode : Int → Nat → List Nat → List Nat
  fec_decode : Int → Nat → List Nat → List Nat
  interleaver_encode : Nat → List Nat → List Nat
  interleaver_decode : Nat → List Nat → List Nat

/-- The only interleaver kind the packetizer ever requests. -/
def LIQUID_INTERLEAVER_BLOCK : Int := 0

/-- One entry of the fec/interleaver plan (C struct `fecintlv_plan`).
The owned `fec` and `interleaver` instances of the C struct are determined by
`fs` resp. `(enc_msg_len, intlv_scheme)`, so their behaviour is recovered
from the environment and not stored here. -/
structure Stage where
  fs : Int
  intlv_scheme : Int
  dec_msg_len : Nat
  enc_msg_len : Nat
  deriving DecidableEq, Inhabited

/-- The packetizer object (C struct `packetizer_s`).  The two scratch buffers
share the single size `buffer_len`; their transient contents are modelled
functionally inside encode/decode. -/
structure Packetizer where
  msg_len : Nat
  packet_len : Nat
  check : Int
  crc_length : Nat
  buffer_len : Nat
  plan : List Stage
  deriving DecidableEq

/-- `packetizer_compute_enc_msg_len` (packetizer.c lines 38-48). -/
def packetizer_compute_enc_msg_len (env : LiquidEnv) (n : Nat)
    (crc f0 f1 : Int) : Nat :=
  let k := n + env.crc_get_length crc
  let n0 := env.fec_get_enc_msg_length f0 k
  let n1 := env.fec_get_enc_msg_length f1 n0
  n1

/-- The `while (k_hat < _k)` loop of `packetizer_compute_dec_msg_len`
(packetizer.c lines 61-79), written with explicit fuel.  Each loop iteration
consumes one unit of fuel; the top-level entry point supplies `k + 1` units,
which covers every terminating run of the C loop whenever the forward encoded
length is at least the uncoded length (true of CRC/FEC stacks, which only add
overhead); when the C loop would not terminate the fuel runs out and `0` is
returned. -/
def packetizer_compute_dec_msg_len_go (env : LiquidEnv) (crc f0 f1 : Int)
    (k : Nat) : Nat → Nat → Nat → Nat
  | 0, _, _ => 0
  | fuel+1, n_hat, k_hat =>
    if k_hat < k then
      let k_hat' := packetizer_compute_enc_msg_len env n_hat crc f0 f1
      if k_hat' = k then n_hat
      else if k_hat' > k then n_hat
      else packetizer_compute_dec_msg_len_go env crc f0 f1 k fuel (n_hat+1) k_hat'
    else 0

/-- `packetizer_compute_dec_msg_len` (packetizer.c lines 56-80). -/
def packetizer_compute_dec_msg_len (env : LiquidEnv) (k : Nat)
    (crc f0 f1 : Int) : Nat :=
  packetizer_compute_dec_msg_len_go env crc f0 f1 k (k+1) 0 0

/-- `packetizer_create` (packetizer.c lines 89-133).  The two-iteration plan
construction loop (`plan_len = 2`) is unrolled; `n0` is the running length
variable of the loop. -/
def packetizer_create (env : LiquidEnv) (n : Nat) (crc f0 f1 : Int) :
    Packetizer :=
  let packet_len := packetizer_compute_enc_msg_len env n crc f0 f1
  let crc_length := env.crc_get_length crc
  let n0 := n + crc_length
  let s0 : Stage :=
    { fs := f0
      intlv_scheme := LIQUID_INTERLEAVER_BLOCK
      dec_msg_len := n0
      enc_msg_len := env.fec_get_enc_msg_length f0 n0 }
  let n1 := s0.enc_msg_len
  let s1 : Stage :=
    { fs := f1
      intlv_scheme := LIQUID_INTERLEAVER_BLOCK
      dec_msg_len := n1
      enc_msg_len := env.fec_get_enc_msg_length f1 n1 }
  { msg_len := n
    packet_len := packet_len
    check := crc
    crc_length := crc_length
    buffer_len := packet_len
    plan := [s0, s1] }

/-- `packetizer_recreate` (packetizer.c lines 142-167).  A NULL input pointer
is modelled as `none`.  Destruction of the old object is a memory effect with
no observable functional content; the returned object is what the C function
returns. -/
def packetizer_recreate (env : LiquidEnv) (p : Option Packetizer) (n : Nat)
    (crc f0 f1 : Int) : Packetizer :=
  match p with
  | none => packetizer_create env n crc f0 f1
  | some p =>
    if p.msg_len = n ∧ p.check = crc ∧
        (p.plan.getD 0 default).fs = f0 ∧ (p.plan.getD 1 default).fs = f1 then
      p
    else
      packetizer_create env n crc f0 f1

/-- The CRC-key serialization loop of `packetizer_encode` (packetizer.c lines
236-242): iteration `i` writes byte `(key >>> (8*i)) % 256` at offset
`crc_length - 1 - i` of the appended block, so the block holds the key in
big-endian byte order. -/
def keyBytesBE : Nat → Nat → List Nat
  | 0, _ => []
  | c+1, key => keyBytesBE c (key >>> 8) ++ [key % 256]

/-- The CRC-key reassembly loop of `packetizer_decode` (packetizer.c lines
291-296): `key <<= 8; key |= byte` over the received key bytes in order. -/
def readKeyBE (bytes : List Nat) : Nat :=
  bytes.foldl (fun k b => (k <<< 8) ||| b) 0

/-- `packetizer_encode` (packetizer.c lines 225-260): copy the message into
the scratch buffer, append the CRC key big-endian, run each plan stage (FEC
encode then interleave), and copy `packet_len` bytes out. -/
def packetizer_encode (env : LiquidEnv) (p : Packetizer)
    (msg : List Nat) : List Nat :=
  let buf := msg.take p.msg_len
  let key := env.crc_generate_key p.check buf
  let buf := buf ++ keyBytesBE p.crc_length key
  let buf := p.plan.foldl
    (fun b st =>
      env.interleaver_encode st.enc_msg_len (env.fec_encode st.fs st.dec_msg_len b))
    buf
  buf.take p.packet_len

/-- The inverse pipeline of `packetizer_decode` (packetizer.c lines 272-288):
copy `packet_len` input bytes into the scratch buffer, then for each stage
from last to first run the de-interleaver and the FEC decoder. -/
def packetizer_decode_buffer (env : LiquidEnv) (p : Packetizer)
    (pkt : List Nat) : List Nat :=
  p.plan.foldr
    (fun st b =>
      env.fec_decode st.fs st.dec_msg_len (env.interleaver_decode st.enc_msg_len b))
    (pkt.take p.packet_len)

/-- `packetizer_decode` (packetizer.c lines 268-306): run the inverse
pipeline, reassemble the received CRC key, copy the first `msg_len` bytes to
the caller, and return the CRC validity flag. -/
def packetizer_decode (env : LiquidEnv) (p : Packetizer)
    (pkt : List Nat) : List Nat × Bool :=
  let buf := packetizer_decode_buffer env p pkt
  let key := readKeyBE ((buf.drop p.msg_len).take p.crc_length)
  (buf.take p.msg_len, env.crc_validate_message p.check (buf.take p.msg_len) key)

/-- `packetizer_set_scheme` (packetizer.c lines 308-311): the body is empty,
so the object is returned unchanged. -/
def packetizer_set_scheme (p : Packetizer) (_fec0 _fec1 : Int) : Packetizer :=
  p

/-- External contract (spec section 6): a FEC scheme's encoder output length
matches the scheme's forward length formula. -/
def FecEncLen (env : LiquidEnv) (fs : Int) : Prop :=
  ∀ d b, b.length = d →
    (env.fec_encode fs d b).length = env.fec_get_enc_msg_length fs d

/-- External contract (spec section 6): decoding an uncorrupted FEC codeword
recovers the message. -/
def FecRoundTrip (env : LiquidEnv) (fs : Int) : Prop :=
  ∀ d b, b.length = d → env.fec_decode fs d (env.fec_encode fs d b) = b

/-- External contract (spec section 6): the interleaver is length
preserving. -/
def IntlvLen (env : LiquidEnv) : Prop :=
  ∀ L b, b.length = L → (env.interleaver_encode L b).length = L

/-- External contract (spec section 6): de-interleaving inverts
interleaving. -/
def IntlvRoundTrip (env : LiquidEnv) : Prop :=
  ∀ L b, b.length = L →
    env.interleaver_decode L (env.interleaver_encode L b) = b

/-- External contract (spec section 6): a CRC key fits in `crc_length`
bytes. -/
def CrcKeyBound (env : LiquidEnv) (crc : Int) : Prop :=
  ∀ msg, env.crc_generate_key crc msg < 256 ^ env.crc_get_length crc

/-- External contract (spec section 6): validating a message against its own
key succeeds. -/
def CrcValid (env : LiquidEnv) (crc : Int) : Prop :=
  ∀ msg, env.crc_validate_message crc msg (env.crc_generate_key crc msg) = true

/-- Concrete environment used as witness: CRC scheme 1 is a 16-bit byte-sum
checksum (fixed 2-byte overhead), FEC scheme 10 is a rate-1/2 repetition
code (forward formula `len*2`), FEC scheme 11 appends four zero bytes
(forward formula `len+4`), and the interleaver reverses its block.  This is
the concrete scheme stack of spec section 8. -/
def concreteEnv : LiquidEnv where
  crc_get_length := fun c => if c = 1 then 2 else 0
  crc_generate_key := fun _ msg => (msg.foldl (fun a x => a + x) 0) % 65536
  crc_validate_message := fun _ msg key =>
    (msg.foldl (fun a x => a + x) 0) % 65536 == key
  fec_get_enc_msg_length := fun f k =>
    if f = 10 then 2 * k else if f = 11 then k + 4 else k
  fec_encode := fun f _ b =>
    if f = 10 then b ++ b else if f = 11 then b ++ [0, 0, 0, 0] else b
  fec_decode := fun _ d b => b.take d
  interleaver_encode := fun _ b => b.reverse
  interleaver_decode := fun _ b => b.reverse

/-- A fixed 8-byte message for witnesses. -/
def msg8 : List Nat := [1, 2, 3, 4, 5, 6, 7, 8]

/-- The packetizer of the concrete scenario of spec section 8. -/
def P8 : Packetizer := packetizer_create concreteEnv 8 1 10 11

/-- A 24-byte packet used by witnesses. -/
def pkt24 : List Nat := List.replicate 24 7

/-- Validator that always rejects, used to show decode output ignores the
validity outcome. -/
def rejectEnv : LiquidEnv :=
  { concreteEnv with crc_validate_message := fun _ _ _ => false }

/-- Structural state of a constructed half-band resampler (C struct
`resamp2_xxxt_s`, resamp2.c).  `fc` and `As` are the stored float
parameters, modelled as rationals (every float value embeds exactly in the
rationals and the validation comparisons against the exactly representable
constants -0.5 and 0.5 are then exact).  `h_len = 4*m+1` and `h1_len = 2*m`
are the lengths of the allocated coefficient arrays and `w0_len = w1_len =
2*m` the capacities of the two input window buffers; the numeric values of
the designed filter coefficients are transcendental-function outputs of the
unrelated numeric filter-design step and are outside this structural
model. -/
structure Resamp2 where
  m : Nat
  fc : ℚ
  As : ℚ
  h_len : Nat
  h1_len : Nat
  w0_len : Nat
  w1_len : Nat
  deriving DecidableEq

/-- `resamp2_xxxt_create` (resamp2.c lines 60-115).  The C code prints a
diagnostic and calls `exit(1)` when the filter semi-length `_m` is below 2,
or when the stored center frequency lies outside [-0.5, 0.5]; this fatal
termination-with-diagnostic is modelled as `Except.error` carrying the
diagnostic, and successful construction as `Except.ok` of the fully
initialized object. -/
def resamp2_create (m : Nat) (fc As : ℚ) : Except String Resamp2 :=
  if m < 2 then
    Except.error "resamp2_xxxt_create(), filter semi-length must be at least 2"
  else if fc < -(1/2) ∨ fc > 1/2 then
    Except.error "resamp2_xxxt_create(), fc must be in [-0.5, 0.5]"
  else
    Except.ok
      { m := m
        fc := fc
        As := As
        h_len := 4 * m + 1
        h1_len := 2 * m
        w0_len := 2 * m
        w1_len := 2 * m }

theorem keyBytesBE_length (c key : Nat) : (keyBytesBE c key).length = c := by
  induction c generalizing key with
  | zero => rfl
  | succ c ih => simp [keyBytesBE, ih]

theorem shiftLeft8_lor (a b : Nat) (hb : b < 256) :
    (a <<< 8) ||| b = a * 256 + b := by
  have h : b < 2 ^ 8 := hb
  have h2 := Nat.mul_add_lt_is_or h a
  rw [Nat.shiftLeft_eq, Nat.mul_comm a (2 ^ 8), ← h2]

theorem readKeyBE_concat (xs : List Nat) (b : Nat) :
    readKeyBE (xs ++ [b]) = (readKeyBE xs <<< 8) ||| b := by
  simp [readKeyBE, List.foldl_append]

theorem readKeyBE_keyBytesBE (c key : Nat) (hkey : key < 256 ^ c) :
    readKeyBE (keyBytesBE c key) = key := by
  induction c generalizing key with
  | zero =>
    have : key = 0 := by simpa using hkey
    simp [this, keyBytesBE, readKeyBE]
  | succ c ih =>
    have hqu : key >>> 8 < 256 ^ c := by
      rw [Nat.shiftRight_eq_div_pow]
      have h8 : (2 : Nat) ^ 8 = 256 := by norm_num
      rw [h8]
      have := Nat.pow_succ 256 c
      omega
    rw [keyBytesBE, readKeyBE_concat, ih _ hqu,
      shiftLeft8_lor _ _ (Nat.mod_lt _ (by norm_num))]
    rw [Nat.shiftRight_eq_div_pow]
    have h8 : (2 : Nat) ^ 8 = 256 := by norm_num
    rw [h8]
    omega

theorem keyBytesBE_getD (c key j : Nat) (hj : j < c) :
    (keyBytesBE c key).getD j 0 = (key >>> (8 * (c - 1 - j))) % 256 := by
  induction c generalizing key j with
  | zero => omega
  | succ c ih =>
    rw [keyBytesBE]
    rcases Nat.lt_or_ge j c with hjc | hjc
    · have hlen : j < (keyBytesBE c (key >>> 8)).length := by
        rw [keyBytesBE_length]; exact hjc
      rw [List.getD_eq_getElem?_getD, List.getElem?_append_left hlen,
        ← List.getD_eq_getElem?_getD, ih _ _ hjc, ← Nat.shiftRight_add]
      have harith : 8 + 8 * (c - 1 - j) = 8 * (c + 1 - 1 - j) := by omega
      rw [harith]
    · have hj' : j = c := by omega
      have hlen : (keyBytesBE c (key >>> 8)).length = c := keyBytesBE_length _ _
      have hz : c + 1 - 1 - c = 0 := by omega
      rw [hj', List.getD_eq_getElem?_getD,
        List.getElem?_append_right (Nat.le_of_eq hlen), hlen, hz]
      simp

theorem concreteEnv_fecEncLen10 : FecEncLen concreteEnv 10 := by
  intro d b hb
  simp [concreteEnv, FecEncLen]
  omega

theorem concreteEnv_fecEncLen11 : FecEncLen concreteEnv 11 := by
  intro d b hb
  simp [concreteEnv, FecEncLen]
  omega

theorem concreteEnv_fecRT10 : FecRoundTrip concreteEnv 10 := by
  intro d b hb
  simp [concreteEnv]
  exact List.take_left' hb

theorem concreteEnv_fecRT11 : FecRoundTrip concreteEnv 11 := by
  intro d b hb
  simp [concreteEnv]
  exact List.take_left' hb

theorem concreteEnv_intlvLen : IntlvLen concreteEnv := by
  intro L b hb
  simp [concreteEnv, hb]

theorem concreteEnv_intlvRT : IntlvRoundTrip concreteEnv := by
  intro L b hb
  simp [concreteEnv]

theorem concreteEnv_crcKeyBound : CrcKeyBound concreteEnv 1 := by
  intro msg
  simp [concreteEnv]
  exact Nat.mod_lt _ (by norm_num)

theorem concreteEnv_crcValid : CrcValid concreteEnv 1 := by
  intro msg
  simp [concreteEnv]

theorem packetizer_encode_create_eq (env : LiquidEnv) (n : Nat)
    (crc f0 f1 : Int) (msg : List Nat) (hm : msg.length = n)
    (h0e : FecEncLen env f0) (h1e : FecEncLen env f1) (hIe : IntlvLen env) :
    packetizer_encode env (packetizer_create env n crc f0 f1) msg =
      env.interleaver_encode
        (env.fec_get_enc_msg_length f1
          (env.fec_get_enc_msg_length f0 (n + env.crc_get_length crc)))
        (env.fec_encode f1
          (env.fec_get_enc_msg_length f0 (n + env.crc_get_length crc))
          (env.interleaver_encode
            (env.fec_get_enc_msg_length f0 (n + env.crc_get_length crc))
            (env.fec_encode f0 (n + env.crc_get_length crc)
              (msg ++ keyBytesBE (env.crc_get_length crc)
                (env.crc_generate_key crc msg))))) ∧
    (packetizer_encode env (packetizer_create env n crc f0 f1) msg).length =
      env.fec_get_enc_msg_length f1
        (env.fec_get_enc_msg_length f0 (n + env.crc_get_length crc)) := by
  have hmsg : msg.take n = msg := by
    rw [← hm]; exact List.take_length msg
  have hb1 : (msg ++ keyBytesBE (env.crc_get_length crc)
      (env.crc_generate_key crc msg)).length = n + env.crc_get_length crc := by
    rw [List.length_append, hm, keyBytesBE_length]
  have he0 := h0e _ _ hb1
  have hi0 := hIe _ _ he0
  have he1 := h1e _ _ hi0
  have hi1 := hIe _ _ he1
  have hunf : packetizer_encode env (packetizer_create env n crc f0 f1) msg =
      (env.interleaver_encode
        (env.fec_get_enc_msg_length f1
          (env.fec_get_enc_msg_length f0 (n + env.crc_get_length crc)))
        (env.fec_encode f1
          (env.fec_get_enc_msg_length f0 (n + env.crc_get_length crc))
          (env.interleaver_encode
            (env.fec_get_enc_msg_length f0 (n + env.crc_get_length crc))
            (env.fec_encode f0 (n + env.crc_get_length crc)
              (msg ++ keyBytesBE (env.crc_get_length crc)
                (env.crc_generate_key crc msg)))))).take
        (env.fec_get_enc_msg_length f1
          (env.fec_get_enc_msg_length f0 (n + env.crc_get_length crc))) := by
    simp only [packetizer_encode, packetizer_create,
      packetizer_compute_enc_msg_len, List.foldl_cons, List.foldl_nil, hmsg]
  have htake : (env.interleaver_encode
        (env.fec_get_enc_msg_length f1
          (env.fec_get_enc_msg_length f0 (n + env.crc_get_length crc)))
        (env.fec_encode f1
          (env.fec_get_enc_msg_length f0 (n + env.crc_get_length crc))
          (env.interleaver_encode
            (env.fec_get_enc_msg_length f0 (n + env.crc_get_length crc))
            (env.fec_encode f0 (n + env.crc_get_length crc)
              (msg ++ keyBytesBE (env.crc_get_length crc)
                (env.crc_generate_key crc msg)))))).take
        (env.fec_get_enc_msg_length f1
          (env.fec_get_enc_msg_length f0 (n + env.crc_get_length crc))) =
      env.interleaver_encode
        (env.fec_get_enc_msg_length f1
          (env.fec_get_enc_msg_length f0 (n + env.crc_get_length crc)))
        (env.fec_encode f1
          (env.fec_get_enc_msg_length f0 (n + env.crc_get_length crc))
          (env.interleaver_encode
            (env.fec_get_enc_msg_length f0 (n + env.crc_get_length crc))
            (env.fec_encode f0 (n + env.crc_get_length crc)
              (msg ++ keyBytesBE (env.crc_get_length crc)
                (env.crc_generate_key crc msg))))) := by
    exact List.take_of_length_le (Nat.le_of_eq hi1)
  refine ⟨hunf.trans htake, ?_⟩
  rw [hunf.trans htake]
  exact hi1

/-- C1: for every valid configuration and every payload of exactly
`message_length` bytes, `packetizer_decode` applied to the output of
`packetizer_encode` with no intervening corruption returns the original
payload bytes exactly and reports validity `true`.  The external CRC, FEC
and interleaver collaborators are assumed to satisfy their interface
contracts (spec section 6): FEC encode output length matches the forward
length formula and FEC decode inverts FEC encode on uncorrupted data, the
interleaver is a length-preserving permutation inverted by the
de-interleaver, and a CRC key fits in `crc_length` bytes and validates its
own message. -/
theorem packetizer_roundtrip (env : LiquidEnv) (n : Nat) (crc f0 f1 : Int)
    (msg : List Nat) (hm : msg.length = n)
    (h0e : FecEncLen env f0) (h1e : FecEncLen env f1) (hIe : IntlvLen env)
    (h0r : FecRoundTrip env f0) (h1r : FecRoundTrip env f1)
    (hIr : IntlvRoundTrip env)
    (hKb : CrcKeyBound env crc) (hKv : CrcValid env crc) :
    packetizer_decode env (packetizer_create env n crc f0 f1)
      (packetizer_encode env (packetizer_create env n crc f0 f1) msg) =
      (msg, true) := by
  obtain ⟨henc, hlen⟩ :=
    packetizer_encode_create_eq env n crc f0 f1 msg hm h0e h1e hIe
  have hb1 : (msg ++ keyBytesBE (env.crc_get_length crc)
      (env.crc_generate_key crc msg)).length = n + env.crc_get_length crc := by
    rw [List.length_append, hm, keyBytesBE_length]
  have he0 := h0e _ _ hb1
  have hi0 := hIe _ _ he0
  have he1 := h1e _ _ hi0
  have hi1 := hIe _ _ he1
  rw [henc]
  simp only [packetizer_decode, packetizer_decode_buffer, packetizer_create,
    packetizer_compute_enc_msg_len, List.foldr_cons, List.foldr_nil]
  rw [List.take_of_length_le (Nat.le_of_eq hi1)]
  rw [hIr _ _ he1, h1r _ _ hi0, hIr _ _ he0, h0r _ _ hb1]
  rw [List.take_left' hm, List.drop_left' hm]
  rw [List.take_of_length_le (Nat.le_of_eq (keyBytesBE_length _ _))]
  rw [readKeyBE_keyBytesBE _ _ (hKb msg), hKv msg]

/-- Witness for C1 at the concrete scheme stack of spec section 8. -/
theorem packetizer_roundtrip_witness :
    msg8.length = 8 ∧
    packetizer_decode concreteEnv P8 (packetizer_encode concreteEnv P8 msg8) =
      (msg8, true) :=
  ⟨rfl, packetizer_roundtrip concreteEnv 8 1 10 11 msg8 rfl
    concreteEnv_fecEncLen10 concreteEnv_fecEncLen11 concreteEnv_intlvLen
    concreteEnv_fecRT10 concreteEnv_fecRT11 concreteEnv_intlvRT
    concreteEnv_crcKeyBound concreteEnv_crcValid⟩

/-- C4: for every input of exactly `message_length` bytes and every
constructed packetizer, `packetizer_encode` produces exactly `packet_length`
output bytes, regardless of payload content (the payload is universally
quantified, so all-zero and all-ones payloads are covered), with no early
exit.  The external FEC encoders are assumed to honour their forward length
formulas and the interleaver to preserve length (spec section 6). -/
theorem packetizer_encode_length (env : LiquidEnv) (n : Nat)
    (crc f0 f1 : Int) (msg : List Nat) (hm : msg.length = n)
    (h0e : FecEncLen env f0) (h1e : FecEncLen env f1) (hIe : IntlvLen env) :
    (packetizer_encode env (packetizer_create env n crc f0 f1) msg).length =
      (packetizer_create env n crc f0 f1).packet_len :=
  (packetizer_encode_create_eq env n crc f0 f1 msg hm h0e h1e hIe).2

/-- Witness for C4 with an all-ones payload. -/
theorem packetizer_encode_length_witness :
    (List.replicate 8 255).length = 8 ∧
    (packetizer_encode concreteEnv P8 (List.replicate 8 255)).length =
      P8.packet_len :=
  ⟨rfl, packetizer_encode_length concreteEnv 8 1 10 11 (List.replicate 8 255)
    rfl concreteEnv_fecEncLen10 concreteEnv_fecEncLen11 concreteEnv_intlvLen⟩

/-- C3: `packetizer_compute_enc_msg_len` is the outer FEC forward length
formula applied to the inner FEC forward length formula applied to the
uncoded length plus the CRC overhead; with the concrete scheme stack of spec
section 8 (2-byte CRC, inner formula len*2, outer formula len+4) it maps 8 to
24, and for a zero-length message it yields the well-defined fully-encoded
CRC-only length. -/
theorem packetizer_compute_enc_msg_len_spec (env : LiquidEnv) (n : Nat)
    (crc f0 f1 : Int) :
    packetizer_compute_enc_msg_len env n crc f0 f1 =
      env.fec_get_enc_msg_length f1
        (env.fec_get_enc_msg_length f0 (n + env.crc_get_length crc)) ∧
    packetizer_compute_enc_msg_len concreteEnv 8 1 10 11 = 24 ∧
    packetizer_compute_enc_msg_len concreteEnv 0 1 10 11 =
      concreteEnv.fec_get_enc_msg_length 11
        (concreteEnv.fec_get_enc_msg_length 10 (concreteEnv.crc_get_length 1)) ∧
    packetizer_compute_enc_msg_len concreteEnv 0 1 10 11 = 8 :=
  ⟨rfl, by decide, by decide, by decide⟩

/-- C6: the object built by `packetizer_create` satisfies the construction
invariants: the plan has exactly two stages; stage 0 decodes
`message_length + crc_length` bytes; each stage's encoded length is the FEC
forward length of its decoded length; stage 1's decoded length is stage 0's
encoded length; `packet_length` is stage 1's encoded length; and the scratch
buffers are sized to `packet_length` (`buffer_len`, the common size of the
two allocated buffers, equals `packet_len`). -/
theorem packetizer_create_invariants (env : LiquidEnv) (n : Nat)
    (crc f0 f1 : Int) :
    (packetizer_create env n crc f0 f1).plan.length = 2 ∧
    (packetizer_create env n crc f0 f1).plan.map Stage.dec_msg_len =
      [n + env.crc_get_length crc,
        env.fec_get_enc_msg_length f0 (n + env.crc_get_length crc)] ∧
    (packetizer_create env n crc f0 f1).plan.map Stage.enc_msg_len =
      [env.fec_get_enc_msg_length f0 (n + env.crc_get_length crc),
        env.fec_get_enc_msg_length f1
          (env.fec_get_enc_msg_length f0 (n + env.crc_get_length crc))] ∧
    (packetizer_create env n crc f0 f1).packet_len =
      env.fec_get_enc_msg_length f1
        (env.fec_get_enc_msg_length f0 (n + env.crc_get_length crc)) ∧
    (packetizer_create env n crc f0 f1).crc_length =
      env.crc_get_length crc ∧
    (packetizer_create env n crc f0 f1).buffer_len =
      (packetizer_create env n crc f0 f1).packet_len :=
  ⟨rfl, rfl, rfl, rfl, rfl, rfl⟩

/-- C7: the CRC key serialization at encode and the key reassembly at decode
are mutually inverse in big-endian byte order: for every key representable in
`crc_length` bytes, the bytes at positions `message_length` through
`message_length + crc_length - 1` of the encode buffer are the key's bytes
most-significant-first, and the decode reassembly loop over those same
positions reconstructs exactly that key. -/
theorem crc_key_serialization_inverse (mlen c key : Nat) (msg : List Nat)
    (hkey : key < 256 ^ c) (hm : msg.length = mlen) :
    ((msg ++ keyBytesBE c key).drop mlen).take c = keyBytesBE c key ∧
    (∀ j, j < c →
      ((msg ++ keyBytesBE c key).drop mlen).getD j 0 =
        (key >>> (8 * (c - 1 - j))) % 256) ∧
    readKeyBE (((msg ++ keyBytesBE c key).drop mlen).take c) = key := by
  have hdrop : (msg ++ keyBytesBE c key).drop mlen = keyBytesBE c key :=
    List.drop_left' hm
  have htake : (keyBytesBE c key).take c = keyBytesBE c key :=
    List.take_of_length_le (Nat.le_of_eq (keyBytesBE_length c key))
  refine ⟨by rw [hdrop, htake], ?_, ?_⟩
  · intro j hj
    rw [hdrop]
    exact keyBytesBE_getD c key j hj
  · rw [hdrop, htake]
    exact readKeyBE_keyBytesBE c key hkey

/-- Witness for C7 with a 2-byte key. -/
theorem crc_key_serialization_inverse_witness :
    43981 < 256 ^ 2 ∧
    readKeyBE (((msg8 ++ keyBytesBE 2 43981).drop 8).take 2) = 43981 :=
  ⟨by decide,
    (crc_key_serialization_inverse 8 2 43981 msg8 (by decide) rfl).2.2⟩

/-- C10: `packetizer_set_scheme` has an empty body, so it leaves the
packetizer completely unchanged and subsequent encode/decode behaviour is
unaffected. -/
theorem packetizer_set_scheme_noop (env : LiquidEnv) (p : Packetizer)
    (f0 f1 : Int) (msg pkt : List Nat) :
    packetizer_set_scheme p f0 f1 = p ∧
    packetizer_encode env (packetizer_set_scheme p f0 f1) msg =
      packetizer_encode env p msg ∧
    packetizer_decode env (packetizer_set_scheme p f0 f1) pkt =
      packetizer_decode env p pkt :=
  ⟨rfl, rfl, rfl⟩

theorem packetizer_compute_dec_msg_len_go_spec (env : LiquidEnv)
    (crc f0 f1 : Int) (k : Nat)
    (hexp : ∀ m, m ≤ packetizer_compute_enc_msg_len env m crc f0 f1) :
    ∀ fuel n_hat k_hat, k + 1 ≤ fuel + n_hat → k_hat < k →
      (∀ m, m < n_hat → packetizer_compute_enc_msg_len env m crc f0 f1 < k) →
      k ≤ packetizer_compute_enc_msg_len env
        (packetizer_compute_dec_msg_len_go env crc f0 f1 k fuel n_hat k_hat)
        crc f0 f1 ∧
      ∀ m, m < packetizer_compute_dec_msg_len_go env crc f0 f1 k fuel n_hat k_hat →
        packetizer_compute_enc_msg_len env m crc f0 f1 < k := by
  intro fuel
  induction fuel with
  | zero =>
    intro n_hat k_hat hfuel hkh hprev
    exfalso
    have hk : k < n_hat := by omega
    have h1 := hprev k hk
    have h2 := hexp k
    omega
  | succ fuel ih =>
    intro n_hat k_hat hfuel hkh hprev
    rw [packetizer_compute_dec_msg_len_go]
    rw [if_pos hkh]
    by_cases he : packetizer_compute_enc_msg_len env n_hat crc f0 f1 = k
    · simp only [he, if_pos rfl]
      exact ⟨Nat.le_of_eq he.symm, hprev⟩
    · simp only [if_neg he]
      by_cases hgt : packetizer_compute_enc_msg_len env n_hat crc f0 f1 > k
      · rw [if_pos hgt]
        exact ⟨Nat.le_of_lt hgt, hprev⟩
      · rw [if_neg hgt]
        apply ih (n_hat + 1) (packetizer_compute_enc_msg_len env n_hat crc f0 f1)
        · omega
        · omega
        · intro m hm
          by_cases hmn : m < n_hat
          · exact hprev m hmn
          · have hmeq : m = n_hat := by omega
            rw [hmeq]
            omega

/-- C2 counterexample: the claim says the returned uncoded length always has
forward encoded length not exceeding the target, and in particular that for
target 23 (with the 2-byte CRC, inner formula len*2, outer formula len+4
stack) the largest non-exceeding length is returned.  The code instead
returns 8 for target 23, whose forward encoded length is 24 > 23, while 7
has forward encoded length 22 ≤ 23. -/
theorem packetizer_compute_dec_msg_len_claim_false :
    packetizer_compute_dec_msg_len concreteEnv 23 1 10 11 = 8 ∧
    packetizer_compute_enc_msg_len concreteEnv 8 1 10 11 = 24 ∧
    packetizer_compute_enc_msg_len concreteEnv 7 1 10 11 = 22 ∧
    ¬(packetizer_compute_enc_msg_len concreteEnv
        (packetizer_compute_dec_msg_len concreteEnv 23 1 10 11) 1 10 11 ≤ 23) := by
  refine ⟨by decide, by decide, by decide, by decide⟩

/-- C2 amended: provided every uncoded length is at most its forward encoded
length (true of CRC/FEC stacks, which only add overhead), for every positive
target `packetizer_compute_dec_msg_len` returns the SMALLEST uncoded length
whose forward encoded length meets or exceeds the target (every smaller
length encodes to strictly below the target); with the concrete stack it
returns 8 for target 24 and also 8 for target 23 (overshooting the target),
and it returns zero for target zero and for any positive target not above
the encoded length of an empty message. -/
theorem packetizer_compute_dec_msg_len_least (env : LiquidEnv)
    (crc f0 f1 : Int) (k : Nat)
    (hexp : ∀ m, m ≤ packetizer_compute_enc_msg_len env m crc f0 f1)
    (hk : 0 < k) :
    k ≤ packetizer_compute_enc_msg_len env
      (packetizer_compute_dec_msg_len env k crc f0 f1) crc f0 f1 ∧
    (∀ m, m < packetizer_compute_dec_msg_len env k crc f0 f1 →
      packetizer_compute_enc_msg_len env m crc f0 f1 < k) ∧
    packetizer_compute_dec_msg_len env 0 crc f0 f1 = 0 ∧
    packetizer_compute_dec_msg_len concreteEnv 24 1 10 11 = 8 ∧
    packetizer_compute_dec_msg_len concreteEnv 23 1 10 11 = 8 ∧
    packetizer_compute_dec_msg_len concreteEnv 5 1 10 11 = 0 := by
  have h := packetizer_compute_dec_msg_len_go_spec env crc f0 f1 k hexp
    (k + 1) 0 0 (by omega) hk (by intro m hm; omega)
  exact ⟨h.1, h.2, rfl, by decide, by decide, by decide⟩

/-- Witness for the amended C2 at target 23 with the concrete stack. -/
theorem packetizer_compute_dec_msg_len_least_witness :
    (∀ m, m ≤ packetizer_compute_enc_msg_len concreteEnv m 1 10 11) ∧
    0 < 23 ∧
    23 ≤ packetizer_compute_enc_msg_len concreteEnv
      (packetizer_compute_dec_msg_len concreteEnv 23 1 10 11) 1 10 11 := by
  have hexp : ∀ m, m ≤ packetizer_compute_enc_msg_len concreteEnv m 1 10 11 := by
    intro m
    simp [packetizer_compute_enc_msg_len, concreteEnv]
    omega
  exact ⟨hexp, by decide,
    (packetizer_compute_dec_msg_len_least concreteEnv 1 10 11 23 hexp
      (by decide)).1⟩

/-- C5: `packetizer_recreate` on an existing packetizer whose current
`(message_length, crc_scheme, fec_inner, fec_outer)` — `msg_len`, `check`,
`plan[0].fs`, `plan[1].fs` — all equal the requested parameters returns the
very same object with all of its state unchanged; if any parameter differs,
the old object is torn down (a memory effect with no functional content)
and the result is a fresh construction with the new parameters. -/
theorem packetizer_recreate_spec (env : LiquidEnv) (p : Packetizer) (n : Nat)
    (crc f0 f1 : Int) :
    ((p.msg_len = n ∧ p.check = crc ∧ (p.plan.getD 0 default).fs = f0 ∧
        (p.plan.getD 1 default).fs = f1) →
      packetizer_recreate env (some p) n crc f0 f1 = p) ∧
    (¬(p.msg_len = n ∧ p.check = crc ∧ (p.plan.getD 0 default).fs = f0 ∧
        (p.plan.getD 1 default).fs = f1) →
      packetizer_recreate env (some p) n crc f0 f1 =
        packetizer_create env n crc f0 f1) := by
  constructor
  · intro h
    simp only [packetizer_recreate, if_pos h]
  · intro h
    simp only [packetizer_recreate, if_neg h]

/-- Witness for C5: recreating `P8` with its own parameters returns `P8`
itself; recreating it with a different message length yields the fresh
construction. -/
theorem packetizer_recreate_spec_witness :
    packetizer_recreate concreteEnv (some P8) 8 1 10 11 = P8 ∧
    packetizer_recreate concreteEnv (some P8) 9 1 10 11 =
      packetizer_create concreteEnv 9 1 10 11 :=
  ⟨(packetizer_recreate_spec concreteEnv P8 8 1 10 11).1 (by decide),
    (packetizer_recreate_spec concreteEnv P8 9 1 10 11).2 (by decide)⟩

/-- C8: `packetizer_decode` always copies the candidate payload — the first
`message_length` bytes of the inverse-pipeline buffer — to the caller,
regardless of whether CRC validation succeeds, and returns the validity as a
boolean.  The first conjunct makes the independence precise: replacing the
external CRC validator by any other (here, `env` and `env'` agree on every
field except `crc_validate_message`) leaves the decoded payload unchanged, so
a failed integrity check never suppresses or alters the output.  The last
two conjuncts pin the payload to the candidate bytes and the returned flag
to the validator's verdict. -/
theorem packetizer_decode_best_effort (env env' : LiquidEnv) (p : Packetizer)
    (pkt : List Nat)
    (h : env' = { env with crc_validate_message := env'.crc_validate_message }) :
    (packetizer_decode env' p pkt).1 = (packetizer_decode env p pkt).1 ∧
    (packetizer_decode env p pkt).1 =
      (packetizer_decode_buffer env p pkt).take p.msg_len ∧
    (packetizer_decode env p pkt).2 =
      env.crc_validate_message p.check
        ((packetizer_decode_buffer env p pkt).take p.msg_len)
        (readKeyBE (((packetizer_decode_buffer env p pkt).drop p.msg_len).take
          p.crc_length)) := by
  have hfd : env'.fec_decode = env.fec_decode := by rw [h]
  have hid : env'.interleaver_decode = env.interleaver_decode := by rw [h]
  have hbuf : packetizer_decode_buffer env' p pkt =
      packetizer_decode_buffer env p pkt := by
    simp only [packetizer_decode_buffer, hfd, hid]
  exact ⟨by simp only [packetizer_decode, hbuf], rfl, rfl⟩

/-- Witness for C8: an always-rejecting validator leaves the decoded payload
identical to the one produced with the real validator. -/
theorem packetizer_decode_best_effort_witness :
    (packetizer_decode rejectEnv P8 pkt24).1 =
      (packetizer_decode concreteEnv P8 pkt24).1 ∧
    (packetizer_decode concreteEnv P8 pkt24).1 =
      (packetizer_decode_buffer concreteEnv P8 pkt24).take P8.msg_len :=
  ⟨(packetizer_decode_best_effort concreteEnv rejectEnv P8 pkt24 rfl).1,
    (packetizer_decode_best_effort concreteEnv rejectEnv P8 pkt24 rfl).2.1⟩

/-- C9: construction of the half-band resampler with a filter semi-length
below the minimum of 2, or with a center frequency outside the valid range
[-0.5, 0.5], is fatal — the C code terminates the process with a diagnostic
(modelled as `Except.error` with the diagnostic) rather than returning a
recoverable error — and for in-range parameters construction returns a fully
initialized object with `h_len = 4*m+1`, `h1_len = 2*m` and both window
buffers of capacity `2*m`. -/
theorem resamp2_create_spec (m : Nat) (fc As : ℚ) :
    ((m < 2 ∨ fc < -(1/2) ∨ fc > 1/2) →
      ∃ e, resamp2_create m fc As = Except.error e) ∧
    (2 ≤ m → -(1/2) ≤ fc → fc ≤ 1/2 →
      resamp2_create m fc As =
        Except.ok ⟨m, fc, As, 4 * m + 1, 2 * m, 2 * m, 2 * m⟩) := by
  constructor
  · intro h
    rw [resamp2_create]
    by_cases hm : m < 2
    · rw [if_pos hm]
      exact ⟨_, rfl⟩
    · rw [if_neg hm]
      have hfc : fc < -(1/2) ∨ fc > 1/2 := h.resolve_left hm
      rw [if_pos hfc]
      exact ⟨_, rfl⟩
  · intro hm hlo hhi
    rw [resamp2_create, if_neg (by omega),
      if_neg (by push_neg; exact ⟨hlo, hhi⟩)]

/-- Witness for C9: semi-length 4 with centered frequency constructs; a
semi-length of 1 is rejected fatally. -/
theorem resamp2_create_spec_witness :
    resamp2_create 4 0 60 = Except.ok ⟨4, 0, 60, 17, 8, 8, 8⟩ ∧
    (∃ e, resamp2_create 1 0 60 = Except.error e) :=
  ⟨(resamp2_create_spec 4 0 60).2 (by norm_num) (by norm_num) (by norm_num),
    (resamp2_create_spec 1 0 60).1 (Or.inl (by norm_num))⟩
